import Mathlib

/-!
Verification of the wire-framing and RPC serialization layer of
`rust-backend-proto` (`src/main.rs`).

Bytes are modelled as `Nat` and buffers as `List Nat`.  Rust strings are
modelled as their UTF-8 byte lists.  `usize` is modelled as `Nat` (buffer
lengths fit in memory); where the code parses a `usize` off the wire the
model keeps serde_json's rejection of values exceeding `2 ^ 64 - 1`.

Rust `Option<T>` results are `Option`; code paths that can panic
(assertions, out-of-range slicing, the `panic!` arm of the rpc-name match)
return a dedicated outcome type so that panics are distinguished from the
"incomplete, need more bytes" result.
-/

/-- `struct ExampleMessage { msg: String }` — the argument payload. -/
structure ExampleMessage where
  msg : List Nat
deriving DecidableEq

/-- `struct ExampleReturn { msg: String }` — the return payload. -/
structure ExampleReturn where
  msg : List Nat
deriving DecidableEq

/-- `struct MessageHeader { rpc: RpcName, body_size: usize, is_return: bool }`. -/
structure MessageHeader where
  rpc : List Nat
  body_size : Nat
  is_return : Bool
deriving DecidableEq

/-- `enum BackendRpcArgVariant { ExampleRpc(ExampleMessage) }`. -/
inductive BackendRpcArgVariant where
  | ExampleRpc : ExampleMessage → BackendRpcArgVariant
deriving DecidableEq

/-- `enum BackendRpcRetVariant { ExampleRpc(ExampleReturn) }`. -/
inductive BackendRpcRetVariant where
  | ExampleRpc : ExampleReturn → BackendRpcRetVariant
deriving DecidableEq

/-- `pub const EXAMPLE_RPC_ID: &str = "ExampleRpc"` as UTF-8 bytes. -/
def EXAMPLE_RPC_ID : List Nat := [69, 120, 97, 109, 112, 108, 101, 82, 112, 99]

/-- Model of `usize::try_into() -> Result<NonZeroUsize, _>` followed by `.ok()`:
succeeds exactly on nonzero values. -/
def tryIntoNonZero (n : Nat) : Option Nat :=
  if n = 0 then none else some n

/-- The loop body of `find_json_delimiter`: `count` bytes have been consumed so
far, `indent` is the brace-nesting counter (only ever decremented, on `'}'`,
byte 125; when it reaches zero the function returns `count.try_into().ok()`). -/
def findJsonDelimiterAux : List Nat → Nat → Int → Option Nat
  | [], _, _ => none
  | b :: rest, count, indent =>
    if b = 125 then
      if indent - 1 = 0 then tryIntoNonZero (count + 1)
      else findJsonDelimiterAux rest (count + 1) (indent - 1)
    else findJsonDelimiterAux rest (count + 1) indent

/-- `fn find_json_delimiter(buf: &[u8]) -> Option<NonZeroUsize>`: requires the
first byte to be `'{'` (byte 123), then scans for the delimiting `'}'`. -/
def find_json_delimiter (buf : List Nat) : Option Nat :=
  match buf with
  | [] => none
  | b :: rest => if b = 123 then findJsonDelimiterAux rest 1 1 else none

/-! ## Model of serde_json

`serde_json::to_vec` output is modelled exactly: compact (no whitespace),
struct fields in declaration order, strings escaped per serde_json's table
(`\"`, `\\`, `\b`, `\t`, `\n`, `\f`, `\r`, and `\u00XX` with lowercase hex
for the remaining control bytes).

`serde_json::from_slice` is modelled by recursive-descent parsers for the
three concrete types, covering the canonical compact encoding the
serializer emits (fixed field order, no interior whitespace) together with
full string-escape decoding, leading-zero and `u64`-overflow rejection for
integers, and the whole-slice requirement (trailing bytes are an error).
Lenient serde features not exercised by any frame in this development
(field reordering, whitespace, `\uXXXX` above ASCII) are outside the model.
-/

/-- Lowercase hex digit byte, as in serde_json's escape table. -/
def hexDigit (x : Nat) : Nat :=
  if x < 10 then 48 + x else 87 + x

/-- serde_json's escaping of one byte inside a JSON string. -/
def jsonEscapeChar (c : Nat) : List Nat :=
  if c = 34 then [92, 34]
  else if c = 92 then [92, 92]
  else if c = 8 then [92, 98]
  else if c = 9 then [92, 116]
  else if c = 10 then [92, 110]
  else if c = 12 then [92, 102]
  else if c = 13 then [92, 114]
  else if c < 32 then [92, 117, 48, 48, hexDigit (c / 16), hexDigit (c % 16)]
  else [c]

/-- serde_json's encoding of a string: quote, escaped bytes, quote. -/
def jsonEncodeString (s : List Nat) : List Nat :=
  34 :: (s.flatMap jsonEscapeChar ++ [34])

/-- Recursion core for decimal printing, structural in a fuel argument so the
kernel can evaluate it; any `fuel > n` yields the digits of `n`. -/
def natToDigitsAux : Nat → Nat → List Nat
  | 0, _ => []
  | fuel + 1, n => if n < 10 then [48 + n] else natToDigitsAux fuel (n / 10) ++ [48 + n % 10]

/-- Decimal digit bytes of a natural number (serde_json's integer output). -/
def natToDigits (n : Nat) : List Nat := natToDigitsAux (n + 1) n

/-- The byte list of the literal `true`. -/
def trueBytes : List Nat := [116, 114, 117, 101]

/-- The byte list of the literal `false`. -/
def falseBytes : List Nat := [102, 97, 108, 115, 101]

/-- `serde_json::to_vec(&MessageHeader { .. })`:
`{"rpc":<string>,"body_size":<digits>,"is_return":<bool>}`. -/
def serializeHeader (h : MessageHeader) : List Nat :=
  [123] ++ jsonEncodeString [114, 112, 99] ++ [58] ++ jsonEncodeString h.rpc ++
  [44] ++ jsonEncodeString [98, 111, 100, 121, 95, 115, 105, 122, 101] ++ [58] ++
    natToDigits h.body_size ++
  [44] ++ jsonEncodeString [105, 115, 95, 114, 101, 116, 117, 114, 110] ++ [58] ++
    (if h.is_return then trueBytes else falseBytes) ++
  [125]

/-- `serde_json::to_vec(&ExampleMessage { .. })`: `{"msg":<string>}`. -/
def serializeExampleMessage (m : ExampleMessage) : List Nat :=
  [123] ++ jsonEncodeString [109, 115, 103] ++ [58] ++ jsonEncodeString m.msg ++ [125]

/-- `serde_json::to_vec(&ExampleReturn { .. })`: `{"msg":<string>}`. -/
def serializeExampleReturn (r : ExampleReturn) : List Nat :=
  [123] ++ jsonEncodeString [109, 115, 103] ++ [58] ++ jsonEncodeString r.msg ++ [125]

/-- Consume an exact byte sequence from the front of the input, returning the
remainder; `none` on any mismatch. -/
def dropExact : List Nat → List Nat → Option (List Nat)
  | [], l => some l
  | _ :: _, [] => none
  | p :: ps, c :: cs => if p = c then dropExact ps cs else none

/-- Value of one hex digit byte (serde_json accepts both cases). -/
def hexVal (c : Nat) : Option Nat :=
  if 48 ≤ c ∧ c ≤ 57 then some (c - 48)
  else if 97 ≤ c ∧ c ≤ 102 then some (c - 87)
  else if 65 ≤ c ∧ c ≤ 70 then some (c - 55)
  else none

/-- Decoded byte of a one-character escape (`\"`, `\\`, `\/`, `\b`, `\f`,
`\n`, `\r`, `\t`). -/
def escCodeOf (e : Nat) : Option Nat :=
  if e = 34 then some 34
  else if e = 92 then some 92
  else if e = 47 then some 47
  else if e = 98 then some 8
  else if e = 102 then some 12
  else if e = 110 then some 10
  else if e = 114 then some 13
  else if e = 116 then some 9
  else none

/-- Parse the body of a JSON string (the opening quote already consumed) up to
and including the closing quote; returns the decoded bytes and the remainder.
Unescaped control bytes are rejected, as serde_json does; `\uXXXX` is decoded
for ASCII code points (the only ones the serializer emits). -/
def parseStringBody : List Nat → Option (List Nat × List Nat)
  | [] => none
  | c :: rest =>
    if c = 34 then some ([], rest)
    else if c = 92 then
      match rest with
      | [] => none
      | e :: r =>
        if e = 117 then
          match r with
          | h1 :: h2 :: h3 :: h4 :: r2 =>
            match hexVal h1, hexVal h2, hexVal h3, hexVal h4 with
            | some a, some b, some c2, some d =>
              let v := ((a * 16 + b) * 16 + c2) * 16 + d
              if v < 128 then
                match parseStringBody r2 with
                | some (s, t) => some (v :: s, t)
                | none => none
              else none
            | _, _, _, _ => none
          | _ => none
        else
          match escCodeOf e with
          | some v =>
            match parseStringBody r with
            | some (s, t) => some (v :: s, t)
            | none => none
          | none => none
    else if c < 32 then none
    else
      match parseStringBody rest with
      | some (s, t) => some (c :: s, t)
      | none => none

/-- Parse a JSON string, opening quote included. -/
def parseJsonString (l : List Nat) : Option (List Nat × List Nat) :=
  match l with
  | [] => none
  | c :: rest => if c = 34 then parseStringBody rest else none

/-- Decimal digit byte test. -/
def isDigitByte (c : Nat) : Bool :=
  decide (48 ≤ c ∧ c ≤ 57)

/-- Value of a digit-byte list read in base 10. -/
def digitsToNat (l : List Nat) : Nat :=
  l.foldl (fun acc d => acc * 10 + (d - 48)) 0

/-- Parse a JSON non-negative integer into a `usize`: at least one digit, no
leading zero, value below `2 ^ 64` (serde_json rejects `u64` overflow). -/
def parseUsize (l : List Nat) : Option (Nat × List Nat) :=
  let ds := l.takeWhile isDigitByte
  if ds = [] then none
  else if ds.head? = some 48 ∧ 1 < ds.length then none
  else if digitsToNat ds < 2 ^ 64 then some (digitsToNat ds, l.dropWhile isDigitByte)
  else none

/-- Parse a JSON boolean literal. -/
def parseBool (l : List Nat) : Option (Bool × List Nat) :=
  match dropExact trueBytes l with
  | some r => some (true, r)
  | none =>
    match dropExact falseBytes l with
    | some r => some (false, r)
    | none => none

/-- Model of `serde_json::from_slice::<MessageHeader>` (see module comment):
`{"rpc":<string>,"body_size":<integer>,"is_return":<bool>}`, consuming the
entire slice. -/
def fromSliceMessageHeader (l : List Nat) : Option MessageHeader :=
  match dropExact [123, 34, 114, 112, 99, 34, 58] l with
  | none => none
  | some r1 =>
    match parseJsonString r1 with
    | none => none
    | some (rpc, r2) =>
      match dropExact [44, 34, 98, 111, 100, 121, 95, 115, 105, 122, 101, 34, 58] r2 with
      | none => none
      | some r3 =>
        match parseUsize r3 with
        | none => none
        | some (n, r4) =>
          match dropExact [44, 34, 105, 115, 95, 114, 101, 116, 117, 114, 110, 34, 58] r4 with
          | none => none
          | some r5 =>
            match parseBool r5 with
            | none => none
            | some (b, r6) =>
              match dropExact [125] r6 with
              | none => none
              | some r7 => if r7 = [] then some ⟨rpc, n, b⟩ else none

/-- Model of `serde_json::from_slice::<ExampleMessage>`: `{"msg":<string>}`,
consuming the entire slice. -/
def fromSliceExampleMessage (l : List Nat) : Option ExampleMessage :=
  match dropExact [123, 34, 109, 115, 103, 34, 58] l with
  | none => none
  | some r1 =>
    match parseJsonString r1 with
    | none => none
    | some (s, r2) =>
      match dropExact [125] r2 with
      | none => none
      | some r3 => if r3 = [] then some ⟨s⟩ else none

/-- Model of `serde_json::from_slice::<ExampleReturn>`: `{"msg":<string>}`,
consuming the entire slice. -/
def fromSliceExampleReturn (l : List Nat) : Option ExampleReturn :=
  match dropExact [123, 34, 109, 115, 103, 34, 58] l with
  | none => none
  | some r1 =>
    match parseJsonString r1 with
    | none => none
    | some (s, r2) =>
      match dropExact [125] r2 with
      | none => none
      | some r3 => if r3 = [] then some ⟨s⟩ else none

/-- Reasons a decode path can panic in the Rust code. -/
inductive PanicReason where
  | assertIsReturn
  | unknownRpc
  | sliceOutOfRange
deriving DecidableEq

/-- Outcome of `parse_rpc_recv` / `parse_rpc_result`: `ok n v` models
`Some((n, v))`, `incomplete` models `None`, and `panicked r` models a Rust
panic (which `Option` cannot carry). -/
inductive ParseOutcome (α : Type) where
  | ok : Nat → α → ParseOutcome α
  | incomplete : ParseOutcome α
  | panicked : PanicReason → ParseOutcome α
deriving DecidableEq

/-- `BackendSerializer::parse_rpc_recv`.  Finds the header delimiter, parses
the header from `buf[..end]`, asserts `!header.is_return`, then slices
`buf[start..end]` for the body (a Rust slice out of range is a panic) and
decodes it by the rpc name; an unknown rpc name is `panic!("Unexpected rpc
type")`.  Returns `Some((end.try_into().ok()?, msg))`. -/
def parse_rpc_recv (buf : List Nat) : ParseOutcome BackendRpcArgVariant :=
  match find_json_delimiter buf with
  | none => .incomplete
  | some k =>
    match fromSliceMessageHeader (buf.take k) with
    | none => .incomplete
    | some header =>
      if header.is_return then .panicked .assertIsReturn
      else
        let e := k + header.body_size
        if header.rpc = EXAMPLE_RPC_ID then
          if e ≤ buf.length then
            match fromSliceExampleMessage ((buf.take e).drop k) with
            | none => .incomplete
            | some m =>
              match tryIntoNonZero e with
              | none => .incomplete
              | some n => .ok n (.ExampleRpc m)
          else .panicked .sliceOutOfRange
        else .panicked .unknownRpc

/-- `BackendSerializer::parse_rpc_result`: identical to `parse_rpc_recv`
(including the `assert!(!header.is_return)`) except that the body is decoded
as `ExampleReturn`. -/
def parse_rpc_result (buf : List Nat) : ParseOutcome BackendRpcRetVariant :=
  match find_json_delimiter buf with
  | none => .incomplete
  | some k =>
    match fromSliceMessageHeader (buf.take k) with
    | none => .incomplete
    | some header =>
      if header.is_return then .panicked .assertIsReturn
      else
        let e := k + header.body_size
        if header.rpc = EXAMPLE_RPC_ID then
          if e ≤ buf.length then
            match fromSliceExampleReturn ((buf.take e).drop k) with
            | none => .incomplete
            | some m =>
              match tryIntoNonZero e with
              | none => .incomplete
              | some n => .ok n (.ExampleRpc m)
          else .panicked .sliceOutOfRange
        else .panicked .unknownRpc

/-- `BackendSerializer::serialize_rpc_arg`: serialize the body, build a header
with the matching rpc id, the body's byte length, and `is_return: false`, and
return header bytes followed by body bytes. -/
def serialize_rpc_arg (arg : BackendRpcArgVariant) : List Nat :=
  match arg with
  | .ExampleRpc a =>
    let body := serializeExampleMessage a
    serializeHeader ⟨EXAMPLE_RPC_ID, body.length, false⟩ ++ body

/-- `BackendSerializer::serialize_rpc_ret`: same shape as `serialize_rpc_arg`
(notably it also sets `is_return: false`). -/
def serialize_rpc_ret (ret : BackendRpcRetVariant) : List Nat :=
  match ret with
  | .ExampleRpc r =>
    let body := serializeExampleReturn r
    serializeHeader ⟨EXAMPLE_RPC_ID, body.length, false⟩ ++ body

/-- The serialized header bytes strictly between the opening `{` (byte 123)
and the closing `}` (byte 125); `serializeHeader h = 123 :: hdrMid h ++ [125]`. -/
def hdrMid (h : MessageHeader) : List Nat :=
  [34, 114, 112, 99, 34, 58] ++ (jsonEncodeString h.rpc ++
  ([44, 34, 98, 111, 100, 121, 95, 115, 105, 122, 101, 34, 58] ++ (natToDigits h.body_size ++
  ([44, 34, 105, 115, 95, 114, 101, 116, 117, 114, 110, 34, 58] ++
  (if h.is_return then trueBytes else falseBytes)))))

/-- The header a decoder sees at the front of a buffer: the composition of
`find_json_delimiter` and header deserialization that both decode paths
perform first. -/
def headerOf (buf : List Nat) : Option MessageHeader :=
  match find_json_delimiter buf with
  | none => none
  | some k => fromSliceMessageHeader (buf.take k)

/-- Outcome of the dispatcher's inner drain-frames loop: `drained sent st`
models the `break` on an incomplete frame (`sent` are the return frames sent,
in order, and `st` the final handler state); `panicked sent` models a panic
ending the loop after `sent` were sent. -/
inductive DrainOutcome (σ : Type) where
  | drained : List (List Nat) → σ → DrainOutcome σ
  | panicked : List (List Nat) → DrainOutcome σ
deriving DecidableEq

/-- `BackendRpcHandler::handle_rpc_received`: dispatch the argument variant to
the typed handler method and wrap its result.  The user-implemented
`handle_example_message` takes `&mut self`, modelled as a state-passing
function `σ → ExampleMessage → Option (ExampleReturn × σ)` (`Result<_, ()>`
as `Option`). -/
def handle_rpc_received {σ : Type}
    (handleExample : σ → ExampleMessage → Option (ExampleReturn × σ))
    (st : σ) (arg : BackendRpcArgVariant) : Option (BackendRpcRetVariant × σ) :=
  match arg with
  | .ExampleRpc m =>
    match handleExample st m with
    | none => none
    | some (r, st2) => some (.ExampleRpc r, st2)

/-- The inner frame-draining loop of `handler_loop`: repeatedly
`parse_rpc_recv` the unconsumed slice, dispatch through
`handle_rpc_received` — whose `Err` hits `.expect(...)`, a panic, before any
send for that request — then serialize and send the return frame, and
advance.  The Rust loop keeps an index `start` into the fixed receive
buffer; re-slicing `&buf[start..end]` after advancing by the consumed
length is modelled as dropping the consumed prefix of the unconsumed
slice.  `sent` accumulates sent frames in reverse. -/
def drainFrames {σ : Type}
    (handleExample : σ → ExampleMessage → Option (ExampleReturn × σ))
    (st : σ) (rem : List Nat) (sent : List (List Nat)) : DrainOutcome σ :=
  match hp : parse_rpc_recv rem with
  | .incomplete => .drained sent.reverse st
  | .panicked _ => .panicked sent.reverse
  | .ok n msg =>
    match handle_rpc_received handleExample st msg with
    | none => .panicked sent.reverse
    | some (res, st2) =>
      drainFrames handleExample st2 (rem.drop n) (serialize_rpc_ret res :: sent)
termination_by rem.length
decreasing_by
  rcases rem with _ | ⟨b, rest⟩
  · simp [parse_rpc_recv, find_json_delimiter] at hp
  · simp only [List.length_drop, List.length_cons]
    have hn : 0 < n := by
      rcases Nat.eq_zero_or_pos n with h0 | h0
      · subst h0
        revert hp
        unfold parse_rpc_recv tryIntoNonZero
        repeat' split
        all_goals simp_all
        all_goals repeat' split
        all_goals simp_all
        all_goals (intro h0; exfalso; omega)
      · exact h0
    omega

/-! ## Primitive codec lemmas -/

theorem dropExact_append (p l : List Nat) : dropExact p (p ++ l) = some l := by
  induction p with
  | nil => rfl
  | cons x xs ih => simp [dropExact, ih]

theorem hexVal_hexDigit {x : Nat} (h : x < 16) : hexVal (hexDigit x) = some x := by
  interval_cases x <;> decide

theorem parseStringBody_encode (s t : List Nat) :
    parseStringBody (s.flatMap jsonEscapeChar ++ 34 :: t) = some (s, t) := by
  induction s with
  | nil => rw [List.flatMap_nil, List.nil_append, parseStringBody.eq_def]; simp
  | cons c cs ih =>
    rw [List.flatMap_cons, List.append_assoc]
    by_cases h34 : c = 34
    · subst h34
      rw [show jsonEscapeChar 34 = [92, 34] from by decide, parseStringBody.eq_def]
      simp [escCodeOf, ih]
    · by_cases h92 : c = 92
      · subst h92
        rw [show jsonEscapeChar 92 = [92, 92] from by decide, parseStringBody.eq_def]
        simp [escCodeOf, ih]
      · by_cases h8 : c = 8
        · subst h8
          rw [show jsonEscapeChar 8 = [92, 98] from by decide, parseStringBody.eq_def]
          simp [escCodeOf, ih]
        · by_cases h9 : c = 9
          · subst h9
            rw [show jsonEscapeChar 9 = [92, 116] from by decide, parseStringBody.eq_def]
            simp [escCodeOf, ih]
          · by_cases h10 : c = 10
            · subst h10
              rw [show jsonEscapeChar 10 = [92, 110] from by decide, parseStringBody.eq_def]
              simp [escCodeOf, ih]
            · by_cases h12 : c = 12
              · subst h12
                rw [show jsonEscapeChar 12 = [92, 102] from by decide, parseStringBody.eq_def]
                simp [escCodeOf, ih]
              · by_cases h13 : c = 13
                · subst h13
                  rw [show jsonEscapeChar 13 = [92, 114] from by decide, parseStringBody.eq_def]
                  simp [escCodeOf, ih]
                · by_cases hlt : c < 32
                  · have hd1 : hexVal (hexDigit (c / 16)) = some (c / 16) :=
                      hexVal_hexDigit (by omega)
                    have hd2 : hexVal (hexDigit (c % 16)) = some (c % 16) :=
                      hexVal_hexDigit (Nat.mod_lt _ (by omega))
                    have h48 : hexVal 48 = some 0 := by decide
                    simp only [jsonEscapeChar, if_neg h34, if_neg h92, if_neg h8, if_neg h9,
                      if_neg h10, if_neg h12, if_neg h13, if_pos hlt]
                    rw [parseStringBody.eq_def]
                    simp only [List.cons_append, List.nil_append]
                    simp [h48, hd1, hd2, ih]
                    constructor
                    · omega
                    · omega
                  · simp only [jsonEscapeChar, if_neg h34, if_neg h92, if_neg h8, if_neg h9,
                      if_neg h10, if_neg h12, if_neg h13, if_neg hlt]
                    rw [parseStringBody.eq_def]
                    simp only [List.cons_append, List.nil_append]
                    simp [h34, h92, hlt, ih]

theorem parseJsonString_encode (s t : List Nat) :
    parseJsonString (jsonEncodeString s ++ t) = some (s, t) := by
  simp [jsonEncodeString, parseJsonString, List.append_assoc, parseStringBody_encode]

theorem natToDigitsAux_ne_nil {fuel n : Nat} (h : n < fuel) : natToDigitsAux fuel n ≠ [] := by
  cases fuel with
  | zero => omega
  | succ f =>
    rw [natToDigitsAux]
    split <;> simp

theorem natToDigitsAux_irrel (fuel1 fuel2 n : Nat) (h1 : n < fuel1) (h2 : n < fuel2) :
    natToDigitsAux fuel1 n = natToDigitsAux fuel2 n := by
  induction fuel1 generalizing fuel2 n with
  | zero => omega
  | succ f1 ih =>
    cases fuel2 with
    | zero => omega
    | succ f2 =>
      rw [natToDigitsAux, natToDigitsAux]
      split
      · rfl
      · rw [ih f2 (n / 10) (by omega) (by omega)]

theorem natToDigits_unfold (n : Nat) :
    natToDigits n = if n < 10 then [48 + n] else natToDigits (n / 10) ++ [48 + n % 10] := by
  rw [natToDigits, natToDigitsAux]
  split
  · rfl
  · rw [natToDigits, natToDigitsAux_irrel n (n / 10 + 1) (n / 10) (by omega) (by omega)]

theorem natToDigits_ne_nil (n : Nat) : natToDigits n ≠ [] :=
  natToDigitsAux_ne_nil (by omega)

theorem natToDigits_mem {n d : Nat} (h : d ∈ natToDigits n) : 48 ≤ d ∧ d ≤ 57 := by
  induction n using Nat.strong_induction_on with
  | _ n ih =>
    rw [natToDigits_unfold] at h
    split at h
    · simp at h; omega
    · rw [List.mem_append] at h
      rcases h with h | h
      · exact ih (n / 10) (Nat.div_lt_self (by omega) (by omega)) h
      · simp at h
        have := Nat.mod_lt n (y := 10) (by omega)
        omega

theorem digitsToNat_append (l : List Nat) (d : Nat) :
    digitsToNat (l ++ [d]) = digitsToNat l * 10 + (d - 48) := by
  simp [digitsToNat, List.foldl_append]

theorem digitsToNat_natToDigits (n : Nat) : digitsToNat (natToDigits n) = n := by
  induction n using Nat.strong_induction_on with
  | _ n ih =>
    rw [natToDigits_unfold]
    split
    · simp [digitsToNat]
    · rw [digitsToNat_append, ih (n / 10) (Nat.div_lt_self (by omega) (by omega))]
      omega

theorem natToDigits_head_ne {n : Nat} (h : n ≠ 0) : (natToDigits n).head? ≠ some 48 := by
  induction n using Nat.strong_induction_on with
  | _ n ih =>
    rw [natToDigits_unfold]
    split
    · simp; omega
    · have hne := natToDigits_ne_nil (n / 10)
      rw [List.head?_append]
      cases hh : (natToDigits (n / 10)).head? with
      | none => simp [List.head?_eq_none_iff] at hh; exact absurd hh hne
      | some y =>
        have := ih (n / 10) (Nat.div_lt_self (by omega) (by omega))
          (by omega)
        simp only [hh, Option.or_some]
        rw [hh] at this
        exact this

theorem takeWhile_append_of_all {p : Nat → Bool} {a b : List Nat}
    (ha : ∀ x ∈ a, p x = true) (hb : ∀ y, b.head? = some y → p y = false) :
    (a ++ b).takeWhile p = a ∧ (a ++ b).dropWhile p = b := by
  induction a with
  | nil =>
    cases b with
    | nil => simp
    | cons y bs => simp [List.takeWhile_cons, List.dropWhile_cons, hb y rfl]
  | cons x xs ih =>
    have hx : p x = true := ha x (by simp)
    have ⟨h1, h2⟩ := ih (fun z hz => ha z (by simp [hz]))
    simp [List.takeWhile_cons, List.dropWhile_cons, hx, h1, h2]

theorem parseUsize_encode {n : Nat} (hn : n < 2 ^ 64) {t : List Nat}
    (ht : ∀ y, t.head? = some y → isDigitByte y = false) :
    parseUsize (natToDigits n ++ t) = some (n, t) := by
  have ha : ∀ x ∈ natToDigits n, isDigitByte x = true := by
    intro x hx
    have := natToDigits_mem hx
    simp [isDigitByte]; omega
  have ⟨h1, h2⟩ := takeWhile_append_of_all ha ht
  unfold parseUsize
  simp only [h1, h2]
  rw [if_neg (by simp [natToDigits_ne_nil n])]
  rw [if_neg ?_, if_pos (by rw [digitsToNat_natToDigits]; exact hn),
    digitsToNat_natToDigits]
  rcases Nat.eq_zero_or_pos n with h0 | h0
  · subst h0
    simp [natToDigits, natToDigitsAux]
  · rintro ⟨hh, -⟩
    exact natToDigits_head_ne (by omega) hh

theorem parseBool_encode (b : Bool) (t : List Nat) :
    parseBool ((if b then trueBytes else falseBytes) ++ t) = some (b, t) := by
  cases b <;> simp [parseBool, trueBytes, falseBytes, dropExact]

/-! ## Header serialization shape and the delimiter scan -/

theorem serializeHeader_shape (h : MessageHeader) :
    serializeHeader h =
      [123, 34, 114, 112, 99, 34, 58] ++ (jsonEncodeString h.rpc ++
      ([44, 34, 98, 111, 100, 121, 95, 115, 105, 122, 101, 34, 58] ++
      (natToDigits h.body_size ++
      ([44, 34, 105, 115, 95, 114, 101, 116, 117, 114, 110, 34, 58] ++
      ((if h.is_return then trueBytes else falseBytes) ++ [125]))))) := by
  have k1 : jsonEncodeString [114, 112, 99] = [34, 114, 112, 99, 34] := by decide
  have k2 : jsonEncodeString [98, 111, 100, 121, 95, 115, 105, 122, 101] =
      [34, 98, 111, 100, 121, 95, 115, 105, 122, 101, 34] := by decide
  have k3 : jsonEncodeString [105, 115, 95, 114, 101, 116, 117, 114, 110] =
      [34, 105, 115, 95, 114, 101, 116, 117, 114, 110, 34] := by decide
  simp only [serializeHeader, k1, k2, k3]
  simp [List.append_assoc]

theorem serializeHeader_eq (h : MessageHeader) :
    serializeHeader h = 123 :: (hdrMid h ++ [125]) := by
  rw [serializeHeader_shape]
  simp [hdrMid, List.append_assoc]

theorem mem_jsonEscapeChar {c y : Nat} (h : y ∈ jsonEscapeChar c) : y = c ∨ y ≤ 117 := by
  have hh : ∀ x, x < 16 → hexDigit x ≤ 102 := by
    intro x hx; unfold hexDigit; split_ifs <;> omega
  unfold jsonEscapeChar at h
  split_ifs at h with h1 h2 h3 h4 h5 h6 h7 h8
  · simp at h; omega
  · simp at h; omega
  · simp at h; omega
  · simp at h; omega
  · simp at h; omega
  · simp at h; omega
  · simp at h; omega
  · simp at h
    have d1 := hh (c / 16) (by omega)
    have d2 := hh (c % 16) (by omega)
    omega
  · simp at h; omega

theorem not_mem_jsonEncodeString {s : List Nat} (h : (125 : Nat) ∉ s) :
    (125 : Nat) ∉ jsonEncodeString s := by
  unfold jsonEncodeString
  intro hmem
  simp only [List.mem_cons, List.mem_append, List.mem_flatMap, List.mem_singleton] at hmem
  rcases hmem with h1 | hmem2
  · omega
  rcases hmem2 with ⟨a, ha, hesc⟩ | h2 | h3
  · rcases mem_jsonEscapeChar hesc with rfl | hle
    · exact h ha
    · omega
  · omega
  · simp at h3

theorem not_mem_natToDigits (n : Nat) : (125 : Nat) ∉ natToDigits n := by
  intro h
  have := natToDigits_mem h
  omega

theorem not_mem_trueFalseBytes (b : Bool) :
    (125 : Nat) ∉ (if b then trueBytes else falseBytes) := by
  cases b <;> decide

theorem not_mem_hdrMid {h : MessageHeader} (hr : (125 : Nat) ∉ h.rpc) :
    (125 : Nat) ∉ hdrMid h := by
  unfold hdrMid
  intro hmem
  simp only [List.mem_append, List.mem_cons, List.not_mem_nil, or_false] at hmem
  rcases hmem with h1 | h2 | h3 | h4 | h5 | h6
  · omega
  · exact not_mem_jsonEncodeString hr h2
  · omega
  · exact not_mem_natToDigits _ h4
  · omega
  · exact not_mem_trueFalseBytes _ h6

theorem findJsonDelimiterAux_append {mid : List Nat} (hm : (125 : Nat) ∉ mid)
    (t : List Nat) (count : Nat) :
    findJsonDelimiterAux (mid ++ 125 :: t) count 1 = some (count + mid.length + 1) := by
  induction mid generalizing count with
  | nil => simp [findJsonDelimiterAux, tryIntoNonZero]
  | cons x xs ih =>
    have hx : x ≠ 125 := by intro h; exact hm (by simp [h])
    have hxs : (125 : Nat) ∉ xs := fun h => hm (by simp [h])
    rw [List.cons_append, findJsonDelimiterAux, if_neg hx, ih hxs]
    simp
    omega

theorem find_json_delimiter_header (h : MessageHeader) (hr : (125 : Nat) ∉ h.rpc)
    (t : List Nat) :
    find_json_delimiter (serializeHeader h ++ t) = some (serializeHeader h).length := by
  rw [serializeHeader_eq]
  have hform : (123 :: (hdrMid h ++ [125])) ++ t = 123 :: (hdrMid h ++ 125 :: t) := by
    simp
  rw [hform, find_json_delimiter]
  simp only [if_pos rfl]
  rw [findJsonDelimiterAux_append (not_mem_hdrMid hr)]
  simp
  omega

/-! ## Deserialization round trips -/

theorem serializeExampleMessage_shape (m : ExampleMessage) :
    serializeExampleMessage m =
      [123, 34, 109, 115, 103, 34, 58] ++ (jsonEncodeString m.msg ++ [125]) := by
  have km : jsonEncodeString [109, 115, 103] = [34, 109, 115, 103, 34] := by decide
  simp only [serializeExampleMessage, km]
  simp [List.append_assoc]

theorem serializeExampleReturn_shape (r : ExampleReturn) :
    serializeExampleReturn r =
      [123, 34, 109, 115, 103, 34, 58] ++ (jsonEncodeString r.msg ++ [125]) := by
  have km : jsonEncodeString [109, 115, 103] = [34, 109, 115, 103, 34] := by decide
  simp only [serializeExampleReturn, km]
  simp [List.append_assoc]

theorem fromSliceExampleMessage_encode (m : ExampleMessage) :
    fromSliceExampleMessage (serializeExampleMessage m) = some m := by
  rw [serializeExampleMessage_shape]
  simp only [fromSliceExampleMessage, dropExact_append, parseJsonString_encode]
  simp [dropExact]

theorem fromSliceExampleReturn_encode (r : ExampleReturn) :
    fromSliceExampleReturn (serializeExampleReturn r) = some r := by
  rw [serializeExampleReturn_shape]
  simp only [fromSliceExampleReturn, dropExact_append, parseJsonString_encode]
  simp [dropExact]

theorem fromSliceExampleReturn_ofMessage (m : ExampleMessage) :
    fromSliceExampleReturn (serializeExampleMessage m) = some ⟨m.msg⟩ := by
  rw [serializeExampleMessage_shape]
  simp only [fromSliceExampleReturn, dropExact_append, parseJsonString_encode]
  simp [dropExact]

theorem fromSliceExampleMessage_ofReturn (r : ExampleReturn) :
    fromSliceExampleMessage (serializeExampleReturn r) = some ⟨r.msg⟩ := by
  rw [serializeExampleReturn_shape]
  simp only [fromSliceExampleMessage, dropExact_append, parseJsonString_encode]
  simp [dropExact]

theorem fromSliceMessageHeader_encode (h : MessageHeader) (hn : h.body_size < 2 ^ 64) :
    fromSliceMessageHeader (serializeHeader h) = some h := by
  have hu : parseUsize (natToDigits h.body_size ++
      ([44, 34, 105, 115, 95, 114, 101, 116, 117, 114, 110, 34, 58] ++
      ((if h.is_return then trueBytes else falseBytes) ++ [125]))) =
      some (h.body_size, [44, 34, 105, 115, 95, 114, 101, 116, 117, 114, 110, 34, 58] ++
      ((if h.is_return then trueBytes else falseBytes) ++ [125])) := by
    refine parseUsize_encode hn ?_
    intro y hy
    simp at hy
    subst hy
    decide
  rw [serializeHeader_shape]
  simp only [fromSliceMessageHeader, dropExact_append, parseJsonString_encode, hu,
    parseBool_encode]
  simp [dropExact]

/-! ## Parsing whole frames -/

theorem parse_recv_headerBody (body : List Nat) (m : ExampleMessage)
    (hbody : fromSliceExampleMessage body = some m)
    (hlen : body.length < 2 ^ 64) (g : List Nat) :
    parse_rpc_recv ((serializeHeader ⟨EXAMPLE_RPC_ID, body.length, false⟩ ++ body) ++ g) =
      .ok (serializeHeader ⟨EXAMPLE_RPC_ID, body.length, false⟩ ++ body).length
        (.ExampleRpc m) := by
  set H := serializeHeader ⟨EXAMPLE_RPC_ID, body.length, false⟩ with hH
  have hHpos : 0 < H.length := by rw [hH, serializeHeader_eq]; simp
  have e1 : find_json_delimiter ((H ++ body) ++ g) = some H.length := by
    rw [List.append_assoc, hH]
    exact find_json_delimiter_header _ (by show (125 : Nat) ∉ EXAMPLE_RPC_ID; decide) _
  have e2 : ((H ++ body) ++ g).take H.length = H := by
    rw [List.append_assoc]
    exact List.take_left _ _
  have e3 : fromSliceMessageHeader H = some ⟨EXAMPLE_RPC_ID, body.length, false⟩ := by
    rw [hH]
    exact fromSliceMessageHeader_encode _ hlen
  have e4 : (((H ++ body) ++ g).take (H.length + body.length)).drop H.length = body := by
    rw [show H.length + body.length = (H ++ body).length by simp, List.take_left,
      List.drop_left]
  have e7 : H.length + body.length ≤ ((H ++ body) ++ g).length := by
    simp [List.length_append]
  have e6 : tryIntoNonZero (H.length + body.length) = some (H.length + body.length) := by
    unfold tryIntoNonZero
    rw [if_neg (by omega)]
  simp only [parse_rpc_recv, e1, e2, e3, e4, hbody, e6]
  simp [e7, List.length_append]

theorem parse_result_headerBody (body : List Nat) (r : ExampleReturn)
    (hbody : fromSliceExampleReturn body = some r)
    (hlen : body.length < 2 ^ 64) (g : List Nat) :
    parse_rpc_result ((serializeHeader ⟨EXAMPLE_RPC_ID, body.length, false⟩ ++ body) ++ g) =
      .ok (serializeHeader ⟨EXAMPLE_RPC_ID, body.length, false⟩ ++ body).length
        (.ExampleRpc r) := by
  set H := serializeHeader ⟨EXAMPLE_RPC_ID, body.length, false⟩ with hH
  have hHpos : 0 < H.length := by rw [hH, serializeHeader_eq]; simp
  have e1 : find_json_delimiter ((H ++ body) ++ g) = some H.length := by
    rw [List.append_assoc, hH]
    exact find_json_delimiter_header _ (by show (125 : Nat) ∉ EXAMPLE_RPC_ID; decide) _
  have e2 : ((H ++ body) ++ g).take H.length = H := by
    rw [List.append_assoc]
    exact List.take_left _ _
  have e3 : fromSliceMessageHeader H = some ⟨EXAMPLE_RPC_ID, body.length, false⟩ := by
    rw [hH]
    exact fromSliceMessageHeader_encode _ hlen
  have e4 : (((H ++ body) ++ g).take (H.length + body.length)).drop H.length = body := by
    rw [show H.length + body.length = (H ++ body).length by simp, List.take_left,
      List.drop_left]
  have e7 : H.length + body.length ≤ ((H ++ body) ++ g).length := by
    simp [List.length_append]
  have e6 : tryIntoNonZero (H.length + body.length) = some (H.length + body.length) := by
    unfold tryIntoNonZero
    rw [if_neg (by omega)]
  simp only [parse_rpc_result, e1, e2, e3, e4, hbody, e6]
  simp [e7, List.length_append]

theorem parse_rpc_recv_arg (m : ExampleMessage)
    (hb : (serializeExampleMessage m).length < 2 ^ 64) (g : List Nat) :
    parse_rpc_recv (serialize_rpc_arg (.ExampleRpc m) ++ g) =
      .ok (serialize_rpc_arg (.ExampleRpc m)).length (.ExampleRpc m) :=
  parse_recv_headerBody (serializeExampleMessage m) m
    (fromSliceExampleMessage_encode m) hb g

theorem parse_rpc_result_ret (r : ExampleReturn)
    (hb : (serializeExampleReturn r).length < 2 ^ 64) (g : List Nat) :
    parse_rpc_result (serialize_rpc_ret (.ExampleRpc r) ++ g) =
      .ok (serialize_rpc_ret (.ExampleRpc r)).length (.ExampleRpc r) :=
  parse_result_headerBody (serializeExampleReturn r) r
    (fromSliceExampleReturn_encode r) hb g

theorem parse_rpc_result_argFrame (m : ExampleMessage)
    (hb : (serializeExampleMessage m).length < 2 ^ 64) (g : List Nat) :
    parse_rpc_result (serialize_rpc_arg (.ExampleRpc m) ++ g) =
      .ok (serialize_rpc_arg (.ExampleRpc m)).length (.ExampleRpc ⟨m.msg⟩) :=
  parse_result_headerBody (serializeExampleMessage m) ⟨m.msg⟩
    (fromSliceExampleReturn_ofMessage m) hb g

theorem parse_rpc_recv_retFrame (r : ExampleReturn)
    (hb : (serializeExampleReturn r).length < 2 ^ 64) (g : List Nat) :
    parse_rpc_recv (serialize_rpc_ret (.ExampleRpc r) ++ g) =
      .ok (serialize_rpc_ret (.ExampleRpc r)).length (.ExampleRpc ⟨r.msg⟩) :=
  parse_recv_headerBody (serializeExampleReturn r) ⟨r.msg⟩
    (fromSliceExampleMessage_ofReturn r) hb g

/-! ## Bounds on consumed lengths -/

theorem findJsonDelimiterAux_bounds {l : List Nat} {count : Nat} {indent : Int} {m : Nat}
    (h : findJsonDelimiterAux l count indent = some m) :
    count < m ∧ m ≤ count + l.length := by
  induction l generalizing count indent with
  | nil => simp [findJsonDelimiterAux] at h
  | cons b rest ih =>
    rw [findJsonDelimiterAux] at h
    split at h
    · split at h
      · unfold tryIntoNonZero at h
        split at h
        · simp at h
        · simp at h
          simp [List.length_cons]
          omega
      · have := ih h
        simp [List.length_cons]
        omega
    · have := ih h
      simp [List.length_cons]
      omega

theorem find_json_delimiter_bounds {buf : List Nat} {k : Nat}
    (h : find_json_delimiter buf = some k) : 2 ≤ k ∧ k ≤ buf.length := by
  unfold find_json_delimiter at h
  split at h
  · simp at h
  · split at h
    · have := findJsonDelimiterAux_bounds h
      simp [List.length_cons]
      omega
    · simp at h

theorem parse_rpc_recv_ok_bounds {buf : List Nat} {n : Nat} {v : BackendRpcArgVariant}
    (h : parse_rpc_recv buf = .ok n v) : 2 ≤ n ∧ n ≤ buf.length := by
  unfold parse_rpc_recv at h
  split at h
  · simp at h
  · rename_i k hk
    have hkb := find_json_delimiter_bounds hk
    split at h
    · simp at h
    · split at h
      · simp at h
      · simp only [] at h
        split at h
        · split at h
          · split at h
            · simp at h
            · unfold tryIntoNonZero at h
              split at h
              · simp at h
              · rename_i nz hnz
                simp at h
                split at hnz
                · simp at hnz
                · simp at hnz
                  rcases h with ⟨h1, h2⟩
                  omega
          · simp at h
        · simp at h

theorem parse_rpc_result_ok_bounds {buf : List Nat} {n : Nat} {v : BackendRpcRetVariant}
    (h : parse_rpc_result buf = .ok n v) : 2 ≤ n ∧ n ≤ buf.length := by
  unfold parse_rpc_result at h
  split at h
  · simp at h
  · rename_i k hk
    have hkb := find_json_delimiter_bounds hk
    split at h
    · simp at h
    · split at h
      · simp at h
      · simp only [] at h
        split at h
        · split at h
          · split at h
            · simp at h
            · unfold tryIntoNonZero at h
              split at h
              · simp at h
              · rename_i nz hnz
                simp at h
                split at hnz
                · simp at hnz
                · simp at hnz
                  rcases h with ⟨h1, h2⟩
                  omega
          · simp at h
        · simp at h

/-! ## Decode behavior determined by the decoded header -/

theorem parse_rpc_recv_isReturn {buf : List Nat} {hdr : MessageHeader}
    (h : headerOf buf = some hdr) (hr : hdr.is_return = true) :
    parse_rpc_recv buf = .panicked .assertIsReturn := by
  unfold headerOf at h
  split at h
  · simp at h
  · rename_i k hk
    simp [parse_rpc_recv, hk, h, hr]

theorem parse_rpc_result_isReturn {buf : List Nat} {hdr : MessageHeader}
    (h : headerOf buf = some hdr) (hr : hdr.is_return = true) :
    parse_rpc_result buf = .panicked .assertIsReturn := by
  unfold headerOf at h
  split at h
  · simp at h
  · rename_i k hk
    simp [parse_rpc_result, hk, h, hr]

theorem parse_rpc_recv_unknownRpc {buf : List Nat} {hdr : MessageHeader}
    (h : headerOf buf = some hdr) (hne : hdr.rpc ≠ EXAMPLE_RPC_ID)
    (hr : hdr.is_return = false) :
    parse_rpc_recv buf = .panicked .unknownRpc := by
  unfold headerOf at h
  split at h
  · simp at h
  · rename_i k hk
    simp [parse_rpc_recv, hk, h, hr, hne]

theorem parse_rpc_result_unknownRpc {buf : List Nat} {hdr : MessageHeader}
    (h : headerOf buf = some hdr) (hne : hdr.rpc ≠ EXAMPLE_RPC_ID)
    (hr : hdr.is_return = false) :
    parse_rpc_result buf = .panicked .unknownRpc := by
  unfold headerOf at h
  split at h
  · simp at h
  · rename_i k hk
    simp [parse_rpc_result, hk, h, hr, hne]

/-! ## Characterization of the delimiter scan -/

theorem findJsonDelimiterAux_iff (l : List Nat) (count m : Nat) :
    findJsonDelimiterAux l count 1 = some m ↔
      ∃ i, l.get? i = some 125 ∧ (∀ j, j < i → l.get? j ≠ some 125) ∧
        m = count + i + 1 := by
  induction l generalizing count with
  | nil => simp [findJsonDelimiterAux]
  | cons b rest ih =>
    rw [findJsonDelimiterAux]
    by_cases hb : b = 125
    · subst hb
      rw [if_pos rfl, if_pos (by norm_num)]
      unfold tryIntoNonZero
      rw [if_neg (by omega)]
      constructor
      · intro h
        simp at h
        exact ⟨0, by simp, by intro j hj; omega, by omega⟩
      · rintro ⟨i, hi, hfirst, hm⟩
        rcases Nat.eq_zero_or_pos i with rfl | hpos
        · simp
          omega
        · exact absurd (by simp : ((125 : Nat) :: rest).get? 0 = some 125) (hfirst 0 hpos)
    · rw [if_neg hb, ih (count + 1)]
      constructor
      · rintro ⟨i, hi, hfirst, hm⟩
        refine ⟨i + 1, by simpa using hi, ?_, by omega⟩
        intro j hj
        cases j with
        | zero => simp [hb]
        | succ j' => simpa using hfirst j' (by omega)
      · rintro ⟨i, hi, hfirst, hm⟩
        cases i with
        | zero =>
          simp at hi
          exact absurd hi hb
        | succ i' =>
          refine ⟨i', by simpa using hi, ?_, by omega⟩
          intro j hj
          have := hfirst (j + 1) (by omega)
          simpa using this

theorem find_json_delimiter_iff (buf : List Nat) (n : Nat) :
    find_json_delimiter buf = some n ↔
      (buf.get? 0 = some 123 ∧ ∃ i, 1 ≤ i ∧ buf.get? i = some 125 ∧
        (∀ j, 1 ≤ j → j < i → buf.get? j ≠ some 125) ∧ n = i + 1) := by
  cases buf with
  | nil => simp [find_json_delimiter]
  | cons b rest =>
    simp only [find_json_delimiter]
    by_cases hb : b = 123
    · subst hb
      rw [if_pos rfl, findJsonDelimiterAux_iff]
      constructor
      · rintro ⟨i, hi, hfirst, hm⟩
        refine ⟨by simp, i + 1, by omega, by simpa using hi, ?_, by omega⟩
        intro j hj1 hji
        cases j with
        | zero => omega
        | succ j' => simpa using hfirst j' (by omega)
      · rintro ⟨-, i, hi1, hi, hfirst, hm⟩
        cases i with
        | zero => omega
        | succ i' =>
          refine ⟨i', by simpa using hi, ?_, by omega⟩
          intro j hj
          have := hfirst (j + 1) (by omega) (by omega)
          simpa using this
    · rw [if_neg hb]
      simp [hb]

/-! ## The dispatcher drain loop -/

theorem drainFrames_handlerErr {σ : Type}
    (handleExample : σ → ExampleMessage → Option (ExampleReturn × σ))
    (st : σ) (rem : List Nat) (sent : List (List Nat)) (n : Nat)
    (msg : BackendRpcArgVariant)
    (hp : parse_rpc_recv rem = .ok n msg)
    (hh : handle_rpc_received handleExample st msg = none) :
    drainFrames handleExample st rem sent = .panicked sent.reverse := by
  rw [drainFrames]
  split
  · rename_i h1
    rw [hp] at h1
    simp at h1
  · rfl
  · rename_i n2 msg2 h1
    rw [hp] at h1
    simp at h1
    obtain ⟨rfl, rfl⟩ := h1
    simp [hh]

/-! ## Frames seen through `headerOf` -/

theorem headerOf_frame (hd : MessageHeader) (body : List Nat)
    (hid : (125 : Nat) ∉ hd.rpc) (hn : hd.body_size < 2 ^ 64) :
    headerOf (serializeHeader hd ++ body) = some hd := by
  unfold headerOf
  simp only [find_json_delimiter_header hd hid body]
  rw [List.take_left]
  exact fromSliceMessageHeader_encode hd hn

/-! ## The claims -/

/-- C1: round-trip law — for every argument value `v`, `parse_rpc_recv` applied
to `serialize_rpc_arg (ExampleRpc v)` returns `Some((n, ExampleRpc v))` with
`n` the full byte length of the encoded frame, and likewise for every return
value with `parse_rpc_result` and `serialize_rpc_ret` (values of wire-encodable
size, i.e. whose encoded body fits a `usize`). -/
theorem roundtrip_parse_serialize (v : ExampleMessage) (r : ExampleReturn)
    (hv : (serializeExampleMessage v).length < 2 ^ 64)
    (hr : (serializeExampleReturn r).length < 2 ^ 64) :
    parse_rpc_recv (serialize_rpc_arg (.ExampleRpc v)) =
      .ok (serialize_rpc_arg (.ExampleRpc v)).length (.ExampleRpc v) ∧
    parse_rpc_result (serialize_rpc_ret (.ExampleRpc r)) =
      .ok (serialize_rpc_ret (.ExampleRpc r)).length (.ExampleRpc r) := by
  constructor
  · simpa using parse_rpc_recv_arg v hv []
  · simpa using parse_rpc_result_ret r hr []

/-- Witness for C1 at `msg = "hi"` on both sides. -/
theorem roundtrip_parse_serialize_witness :
    (serializeExampleMessage ⟨[104, 105]⟩).length < 2 ^ 64 ∧
    (serializeExampleReturn ⟨[104, 105]⟩).length < 2 ^ 64 ∧
    (parse_rpc_recv (serialize_rpc_arg (.ExampleRpc ⟨[104, 105]⟩)) =
        .ok (serialize_rpc_arg (.ExampleRpc ⟨[104, 105]⟩)).length (.ExampleRpc ⟨[104, 105]⟩) ∧
      parse_rpc_result (serialize_rpc_ret (.ExampleRpc ⟨[104, 105]⟩)) =
        .ok (serialize_rpc_ret (.ExampleRpc ⟨[104, 105]⟩)).length (.ExampleRpc ⟨[104, 105]⟩)) :=
  ⟨by decide, by decide,
    roundtrip_parse_serialize ⟨[104, 105]⟩ ⟨[104, 105]⟩ (by decide) (by decide)⟩

/-- C2: what the code actually does on the failing input — on the 52-byte
buffer holding exactly the header `{"rpc":"ExampleRpc","body_size":5,"is_return":false}`
and no body bytes, `parse_rpc_recv` panics (the Rust body slice
`&buf[start..end]` is out of range) instead of returning `None`; on a buffer
shorter than a complete header it does return `None` as claimed. -/
theorem bodySize_overrun_panics :
    parse_rpc_recv [123, 34, 114, 112, 99, 34, 58, 34, 69, 120, 97, 109, 112, 108, 101,
      82, 112, 99, 34, 44, 34, 98, 111, 100, 121, 95, 115, 105, 122, 101, 34, 58, 53,
      44, 34, 105, 115, 95, 114, 101, 116, 117, 114, 110, 34, 58, 102, 97, 108, 115,
      101, 125] = .panicked .sliceOutOfRange ∧
    parse_rpc_recv [123, 34, 114] = .incomplete := by
  constructor
  · decide
  · decide

/-- C3: `find_json_delimiter` returns `none` when the buffer is empty or does
not start with `'{'`; it returns `some n` exactly when the buffer starts with
`'{'` and some byte at index `i ≥ 1` is `'}'`, with `n = i + 1` the offset just
past the first such `'}'` (no condition on intervening `'{'` bytes); every
returned offset is at least 2. -/
theorem find_json_delimiter_characterization (buf : List Nat) :
    ((buf = [] ∨ buf.get? 0 ≠ some 123) → find_json_delimiter buf = none) ∧
    (∀ n, find_json_delimiter buf = some n ↔
      (buf.get? 0 = some 123 ∧ ∃ i, 1 ≤ i ∧ buf.get? i = some 125 ∧
        (∀ j, 1 ≤ j → j < i → buf.get? j ≠ some 125) ∧ n = i + 1)) ∧
    (∀ n, find_json_delimiter buf = some n → 2 ≤ n) := by
  refine ⟨?_, fun n => find_json_delimiter_iff buf n, ?_⟩
  · intro h
    cases hf : find_json_delimiter buf with
    | none => rfl
    | some n =>
      rw [find_json_delimiter_iff] at hf
      rcases h with rfl | hne
      · simp at hf
      · exact absurd hf.1 hne
  · intro n hn
    rw [find_json_delimiter_iff] at hn
    obtain ⟨-, i, hi1, -, -, hn⟩ := hn
    omega

/-- C4: every header produced by either encode path carries
`is_return = false`; any buffer whose decoded header carries
`is_return = true` makes both decode paths fail the assertion; and the
assertion never fires on a frame produced by either encode path, whichever
decode path reads it. -/
theorem isReturn_flag_behavior (buf : List Nat) (hdr : MessageHeader)
    (a : ExampleMessage) (r : ExampleReturn)
    (h : headerOf buf = some hdr) (hret : hdr.is_return = true)
    (ha : (serializeExampleMessage a).length < 2 ^ 64)
    (hr : (serializeExampleReturn r).length < 2 ^ 64) :
    parse_rpc_recv buf = .panicked .assertIsReturn ∧
    parse_rpc_result buf = .panicked .assertIsReturn ∧
    headerOf (serialize_rpc_arg (.ExampleRpc a)) =
      some ⟨EXAMPLE_RPC_ID, (serializeExampleMessage a).length, false⟩ ∧
    headerOf (serialize_rpc_ret (.ExampleRpc r)) =
      some ⟨EXAMPLE_RPC_ID, (serializeExampleReturn r).length, false⟩ ∧
    parse_rpc_recv (serialize_rpc_arg (.ExampleRpc a)) ≠ .panicked .assertIsReturn ∧
    parse_rpc_result (serialize_rpc_arg (.ExampleRpc a)) ≠ .panicked .assertIsReturn ∧
    parse_rpc_recv (serialize_rpc_ret (.ExampleRpc r)) ≠ .panicked .assertIsReturn ∧
    parse_rpc_result (serialize_rpc_ret (.ExampleRpc r)) ≠ .panicked .assertIsReturn := by
  refine ⟨parse_rpc_recv_isReturn h hret, parse_rpc_result_isReturn h hret,
    headerOf_frame _ _ (by show (125 : Nat) ∉ EXAMPLE_RPC_ID; decide) ha,
    headerOf_frame _ _ (by show (125 : Nat) ∉ EXAMPLE_RPC_ID; decide) hr, ?_, ?_, ?_, ?_⟩
  · have hh := parse_rpc_recv_arg a ha []
    rw [List.append_nil] at hh
    rw [hh]
    simp
  · have hh := parse_rpc_result_argFrame a ha []
    rw [List.append_nil] at hh
    rw [hh]
    simp
  · have hh := parse_rpc_recv_retFrame r hr []
    rw [List.append_nil] at hh
    rw [hh]
    simp
  · have hh := parse_rpc_result_ret r hr []
    rw [List.append_nil] at hh
    rw [hh]
    simp

/-- Witness for C4: a header frame with `is_return = true`, and the two encode
paths at concrete one-byte messages. -/
theorem isReturn_flag_behavior_witness :
    headerOf (serializeHeader (MessageHeader.mk EXAMPLE_RPC_ID 0 true)) =
      some (MessageHeader.mk EXAMPLE_RPC_ID 0 true) ∧
    (MessageHeader.mk EXAMPLE_RPC_ID 0 true).is_return = true ∧
    (serializeExampleMessage ⟨[104]⟩).length < 2 ^ 64 ∧
    (serializeExampleReturn ⟨[105]⟩).length < 2 ^ 64 ∧
    (parse_rpc_recv (serializeHeader (MessageHeader.mk EXAMPLE_RPC_ID 0 true)) =
        .panicked .assertIsReturn ∧
      parse_rpc_result (serializeHeader (MessageHeader.mk EXAMPLE_RPC_ID 0 true)) =
        .panicked .assertIsReturn ∧
      headerOf (serialize_rpc_arg (.ExampleRpc ⟨[104]⟩)) =
        some (MessageHeader.mk EXAMPLE_RPC_ID (serializeExampleMessage ⟨[104]⟩).length false) ∧
      headerOf (serialize_rpc_ret (.ExampleRpc ⟨[105]⟩)) =
        some (MessageHeader.mk EXAMPLE_RPC_ID (serializeExampleReturn ⟨[105]⟩).length false) ∧
      parse_rpc_recv (serialize_rpc_arg (.ExampleRpc ⟨[104]⟩)) ≠ .panicked .assertIsReturn ∧
      parse_rpc_result (serialize_rpc_arg (.ExampleRpc ⟨[104]⟩)) ≠ .panicked .assertIsReturn ∧
      parse_rpc_recv (serialize_rpc_ret (.ExampleRpc ⟨[105]⟩)) ≠ .panicked .assertIsReturn ∧
      parse_rpc_result (serialize_rpc_ret (.ExampleRpc ⟨[105]⟩)) ≠ .panicked .assertIsReturn) :=
  ⟨by decide, rfl, by decide, by decide,
    isReturn_flag_behavior (serializeHeader (MessageHeader.mk EXAMPLE_RPC_ID 0 true))
      (MessageHeader.mk EXAMPLE_RPC_ID 0 true) ⟨[104]⟩ ⟨[105]⟩
      (by decide) rfl (by decide) (by decide)⟩

/-- C5: in every frame produced by either encode path, the header decoded back
off the front of the buffer declares `body_size` equal to the byte length of
the rest of the buffer, and that rest is exactly the encoded body, which
immediately follows the header bytes. -/
theorem bodySize_matches_encoded_body (a : ExampleMessage) (r : ExampleReturn)
    (ha : (serializeExampleMessage a).length < 2 ^ 64)
    (hr : (serializeExampleReturn r).length < 2 ^ 64) :
    (∃ k hd, find_json_delimiter (serialize_rpc_arg (.ExampleRpc a)) = some k ∧
      fromSliceMessageHeader ((serialize_rpc_arg (.ExampleRpc a)).take k) = some hd ∧
      hd.body_size = ((serialize_rpc_arg (.ExampleRpc a)).drop k).length ∧
      (serialize_rpc_arg (.ExampleRpc a)).drop k = serializeExampleMessage a ∧
      (serialize_rpc_arg (.ExampleRpc a)).take k ++ serializeExampleMessage a =
        serialize_rpc_arg (.ExampleRpc a)) ∧
    (∃ k hd, find_json_delimiter (serialize_rpc_ret (.ExampleRpc r)) = some k ∧
      fromSliceMessageHeader ((serialize_rpc_ret (.ExampleRpc r)).take k) = some hd ∧
      hd.body_size = ((serialize_rpc_ret (.ExampleRpc r)).drop k).length ∧
      (serialize_rpc_ret (.ExampleRpc r)).drop k = serializeExampleReturn r ∧
      (serialize_rpc_ret (.ExampleRpc r)).take k ++ serializeExampleReturn r =
        serialize_rpc_ret (.ExampleRpc r)) := by
  have ea : serialize_rpc_arg (.ExampleRpc a) =
      serializeHeader ⟨EXAMPLE_RPC_ID, (serializeExampleMessage a).length, false⟩ ++
        serializeExampleMessage a := rfl
  have er : serialize_rpc_ret (.ExampleRpc r) =
      serializeHeader ⟨EXAMPLE_RPC_ID, (serializeExampleReturn r).length, false⟩ ++
        serializeExampleReturn r := rfl
  constructor
  · refine ⟨(serializeHeader ⟨EXAMPLE_RPC_ID, (serializeExampleMessage a).length,
        false⟩).length,
      ⟨EXAMPLE_RPC_ID, (serializeExampleMessage a).length, false⟩, ?_, ?_, ?_, ?_, ?_⟩
    · rw [ea]
      exact find_json_delimiter_header _ (by show (125 : Nat) ∉ EXAMPLE_RPC_ID; decide) _
    · rw [ea, List.take_left]
      exact fromSliceMessageHeader_encode _ ha
    · rw [ea, List.drop_left]
    · rw [ea, List.drop_left]
    · rw [ea, List.take_left]
  · refine ⟨(serializeHeader ⟨EXAMPLE_RPC_ID, (serializeExampleReturn r).length,
        false⟩).length,
      ⟨EXAMPLE_RPC_ID, (serializeExampleReturn r).length, false⟩, ?_, ?_, ?_, ?_, ?_⟩
    · rw [er]
      exact find_json_delimiter_header _ (by show (125 : Nat) ∉ EXAMPLE_RPC_ID; decide) _
    · rw [er, List.take_left]
      exact fromSliceMessageHeader_encode _ hr
    · rw [er, List.drop_left]
    · rw [er, List.drop_left]
    · rw [er, List.take_left]

/-- Witness for C5 at one-byte messages on both paths. -/
theorem bodySize_matches_encoded_body_witness :
    (serializeExampleMessage ⟨[104]⟩).length < 2 ^ 64 ∧
    (serializeExampleReturn ⟨[105]⟩).length < 2 ^ 64 ∧
    ((∃ k hd, find_json_delimiter (serialize_rpc_arg (.ExampleRpc ⟨[104]⟩)) = some k ∧
      fromSliceMessageHeader ((serialize_rpc_arg (.ExampleRpc ⟨[104]⟩)).take k) = some hd ∧
      hd.body_size = ((serialize_rpc_arg (.ExampleRpc ⟨[104]⟩)).drop k).length ∧
      (serialize_rpc_arg (.ExampleRpc ⟨[104]⟩)).drop k = serializeExampleMessage ⟨[104]⟩ ∧
      (serialize_rpc_arg (.ExampleRpc ⟨[104]⟩)).take k ++ serializeExampleMessage ⟨[104]⟩ =
        serialize_rpc_arg (.ExampleRpc ⟨[104]⟩)) ∧
    (∃ k hd, find_json_delimiter (serialize_rpc_ret (.ExampleRpc ⟨[105]⟩)) = some k ∧
      fromSliceMessageHeader ((serialize_rpc_ret (.ExampleRpc ⟨[105]⟩)).take k) = some hd ∧
      hd.body_size = ((serialize_rpc_ret (.ExampleRpc ⟨[105]⟩)).drop k).length ∧
      (serialize_rpc_ret (.ExampleRpc ⟨[105]⟩)).drop k = serializeExampleReturn ⟨[105]⟩ ∧
      (serialize_rpc_ret (.ExampleRpc ⟨[105]⟩)).take k ++ serializeExampleReturn ⟨[105]⟩ =
        serialize_rpc_ret (.ExampleRpc ⟨[105]⟩))) :=
  ⟨by decide, by decide,
    bodySize_matches_encoded_body ⟨[104]⟩ ⟨[105]⟩ (by decide) (by decide)⟩

/-- C6: a buffer whose leading header decodes successfully but names an rpc
other than `"ExampleRpc"` makes both decode paths panic (a protocol
violation); neither ever returns `Some` with any substituted variant. -/
theorem unknown_rpc_rejected (buf : List Nat) (hdr : MessageHeader)
    (h : headerOf buf = some hdr) (hne : hdr.rpc ≠ EXAMPLE_RPC_ID) :
    (∃ reason, parse_rpc_recv buf = .panicked reason) ∧
    (∃ reason, parse_rpc_result buf = .panicked reason) ∧
    (∀ n v, parse_rpc_recv buf ≠ .ok n v) ∧
    (∀ n v, parse_rpc_result buf ≠ .ok n v) := by
  have key : (parse_rpc_recv buf = .panicked .assertIsReturn ∧
      parse_rpc_result buf = .panicked .assertIsReturn) ∨
      (parse_rpc_recv buf = .panicked .unknownRpc ∧
      parse_rpc_result buf = .panicked .unknownRpc) := by
    cases hret : hdr.is_return with
    | true => exact Or.inl ⟨parse_rpc_recv_isReturn h hret, parse_rpc_result_isReturn h hret⟩
    | false =>
      exact Or.inr ⟨parse_rpc_recv_unknownRpc h hne hret,
        parse_rpc_result_unknownRpc h hne hret⟩
  rcases key with ⟨k1, k2⟩ | ⟨k1, k2⟩ <;>
    exact ⟨⟨_, k1⟩, ⟨_, k2⟩, fun n v hv => by rw [k1] at hv; simp at hv,
      fun n v hv => by rw [k2] at hv; simp at hv⟩

/-- Witness for C6: the header `{"rpc":"Bogus","body_size":0,"is_return":false}`. -/
theorem unknown_rpc_rejected_witness :
    headerOf (serializeHeader (MessageHeader.mk [66, 111, 103, 117, 115] 0 false)) =
      some (MessageHeader.mk [66, 111, 103, 117, 115] 0 false) ∧
    (MessageHeader.mk [66, 111, 103, 117, 115] 0 false).rpc ≠ EXAMPLE_RPC_ID ∧
    ((∃ reason, parse_rpc_recv
        (serializeHeader (MessageHeader.mk [66, 111, 103, 117, 115] 0 false)) =
        .panicked reason) ∧
      (∃ reason, parse_rpc_result
        (serializeHeader (MessageHeader.mk [66, 111, 103, 117, 115] 0 false)) =
        .panicked reason) ∧
      (∀ n v, parse_rpc_recv
        (serializeHeader (MessageHeader.mk [66, 111, 103, 117, 115] 0 false)) ≠ .ok n v) ∧
      (∀ n v, parse_rpc_result
        (serializeHeader (MessageHeader.mk [66, 111, 103, 117, 115] 0 false)) ≠ .ok n v)) :=
  ⟨by decide, by decide,
    unknown_rpc_rejected (serializeHeader (MessageHeader.mk [66, 111, 103, 117, 115] 0 false))
      (MessageHeader.mk [66, 111, 103, 117, 115] 0 false) (by decide) (by decide)⟩

/-- C7: decoding the concatenation of two encoded argument frames yields the
first frame's variant with consumed length the first frame's length, and
decoding again from that offset yields the second frame's variant with
consumed length the second frame's length — the same two variants as decoding
each frame independently. -/
theorem concatenated_frames_decode_in_sequence (v1 v2 : ExampleMessage)
    (h1 : (serializeExampleMessage v1).length < 2 ^ 64)
    (h2 : (serializeExampleMessage v2).length < 2 ^ 64) :
    parse_rpc_recv (serialize_rpc_arg (.ExampleRpc v1) ++ serialize_rpc_arg (.ExampleRpc v2)) =
      .ok (serialize_rpc_arg (.ExampleRpc v1)).length (.ExampleRpc v1) ∧
    parse_rpc_recv ((serialize_rpc_arg (.ExampleRpc v1) ++
        serialize_rpc_arg (.ExampleRpc v2)).drop (serialize_rpc_arg (.ExampleRpc v1)).length) =
      .ok (serialize_rpc_arg (.ExampleRpc v2)).length (.ExampleRpc v2) ∧
    parse_rpc_recv (serialize_rpc_arg (.ExampleRpc v1)) =
      .ok (serialize_rpc_arg (.ExampleRpc v1)).length (.ExampleRpc v1) ∧
    parse_rpc_recv (serialize_rpc_arg (.ExampleRpc v2)) =
      .ok (serialize_rpc_arg (.ExampleRpc v2)).length (.ExampleRpc v2) := by
  refine ⟨parse_rpc_recv_arg v1 h1 _, ?_, ?_, ?_⟩
  · rw [List.drop_left]
    simpa using parse_rpc_recv_arg v2 h2 []
  · simpa using parse_rpc_recv_arg v1 h1 []
  · simpa using parse_rpc_recv_arg v2 h2 []

/-- Witness for C7 at `msg = "hi"` and `msg = "yo"`. -/
theorem concatenated_frames_decode_in_sequence_witness :
    (serializeExampleMessage ⟨[104, 105]⟩).length < 2 ^ 64 ∧
    (serializeExampleMessage ⟨[121, 111]⟩).length < 2 ^ 64 ∧
    (parse_rpc_recv (serialize_rpc_arg (.ExampleRpc ⟨[104, 105]⟩) ++
        serialize_rpc_arg (.ExampleRpc ⟨[121, 111]⟩)) =
      .ok (serialize_rpc_arg (.ExampleRpc ⟨[104, 105]⟩)).length (.ExampleRpc ⟨[104, 105]⟩) ∧
    parse_rpc_recv ((serialize_rpc_arg (.ExampleRpc ⟨[104, 105]⟩) ++
        serialize_rpc_arg (.ExampleRpc ⟨[121, 111]⟩)).drop
          (serialize_rpc_arg (.ExampleRpc ⟨[104, 105]⟩)).length) =
      .ok (serialize_rpc_arg (.ExampleRpc ⟨[121, 111]⟩)).length (.ExampleRpc ⟨[121, 111]⟩) ∧
    parse_rpc_recv (serialize_rpc_arg (.ExampleRpc ⟨[104, 105]⟩)) =
      .ok (serialize_rpc_arg (.ExampleRpc ⟨[104, 105]⟩)).length (.ExampleRpc ⟨[104, 105]⟩) ∧
    parse_rpc_recv (serialize_rpc_arg (.ExampleRpc ⟨[121, 111]⟩)) =
      .ok (serialize_rpc_arg (.ExampleRpc ⟨[121, 111]⟩)).length (.ExampleRpc ⟨[121, 111]⟩)) :=
  ⟨by decide, by decide,
    concatenated_frames_decode_in_sequence ⟨[104, 105]⟩ ⟨[121, 111]⟩ (by decide) (by decide)⟩

/-- C8 counterexample: at the concrete argument value `msg = "}"` (byte 125),
the scanner does not misidentify the header boundary: applied to
`serialize_rpc_arg`'s output it returns exactly the length of the serialized
header, i.e. the true end of the header — the body's brace is never reached
because the header's own closing brace comes first. -/
theorem payload_brace_counterexample :
    (125 : Nat) ∈ (ExampleMessage.mk [125]).msg ∧
    serialize_rpc_arg (.ExampleRpc ⟨[125]⟩) =
      serializeHeader ⟨EXAMPLE_RPC_ID, (serializeExampleMessage ⟨[125]⟩).length, false⟩ ++
        serializeExampleMessage ⟨[125]⟩ ∧
    find_json_delimiter (serialize_rpc_arg (.ExampleRpc ⟨[125]⟩)) =
      some (serializeHeader ⟨EXAMPLE_RPC_ID, (serializeExampleMessage ⟨[125]⟩).length,
        false⟩).length :=
  ⟨by decide, rfl, by decide⟩

/-- C8 (amended): for every argument value whose payload string contains a
literal `'}'`, the Frame Delimiter Scanner still identifies the header
boundary of the encoded frame correctly — `find_json_delimiter` applied to
`serialize_rpc_arg`'s output returns exactly the end of the serialized
header. -/
theorem payload_brace_amended (m : ExampleMessage) (h : (125 : Nat) ∈ m.msg) :
    find_json_delimiter (serialize_rpc_arg (.ExampleRpc m)) =
      some (serializeHeader ⟨EXAMPLE_RPC_ID, (serializeExampleMessage m).length,
        false⟩).length :=
  find_json_delimiter_header _ (by show (125 : Nat) ∉ EXAMPLE_RPC_ID; decide) _

/-- Witness for the amended C8 at `msg = "}h"`. -/
theorem payload_brace_amended_witness :
    (125 : Nat) ∈ (ExampleMessage.mk [125, 104]).msg ∧
    find_json_delimiter (serialize_rpc_arg (.ExampleRpc ⟨[125, 104]⟩)) =
      some (serializeHeader ⟨EXAMPLE_RPC_ID, (serializeExampleMessage ⟨[125, 104]⟩).length,
        false⟩).length :=
  ⟨by decide, payload_brace_amended ⟨[125, 104]⟩ (by decide)⟩

/-- C9: in the dispatcher's drain loop, whenever the handler's
`handle_rpc_received` returns `Err` for a successfully decoded argument frame,
the loop aborts (the `.expect` panics) before any send for that request: the
frames sent are exactly those of the previously handled requests, with no
failure-return frame added. -/
theorem handler_error_aborts_before_send {σ : Type}
    (handleExample : σ → ExampleMessage → Option (ExampleReturn × σ))
    (st : σ) (rem : List Nat) (sent : List (List Nat)) (n : Nat)
    (msg : BackendRpcArgVariant)
    (hp : parse_rpc_recv rem = .ok n msg)
    (hh : handle_rpc_received handleExample st msg = none) :
    drainFrames handleExample st rem sent = .panicked sent.reverse :=
  drainFrames_handlerErr handleExample st rem sent n msg hp hh

/-- Witness for C9: an always-failing handler on a concrete decoded frame. -/
theorem handler_error_aborts_before_send_witness :
    parse_rpc_recv (serialize_rpc_arg (.ExampleRpc ⟨[104, 105]⟩)) =
      .ok (serialize_rpc_arg (.ExampleRpc ⟨[104, 105]⟩)).length (.ExampleRpc ⟨[104, 105]⟩) ∧
    handle_rpc_received (fun (_ : Unit) (_ : ExampleMessage) => none) ()
      (.ExampleRpc ⟨[104, 105]⟩) = none ∧
    drainFrames (fun (_ : Unit) (_ : ExampleMessage) => none) ()
      (serialize_rpc_arg (.ExampleRpc ⟨[104, 105]⟩)) [] =
      .panicked ([] : List (List Nat)).reverse :=
  ⟨by decide, rfl,
    handler_error_aborts_before_send (fun (_ : Unit) (_ : ExampleMessage) => none) ()
      (serialize_rpc_arg (.ExampleRpc ⟨[104, 105]⟩)) []
      (serialize_rpc_arg (.ExampleRpc ⟨[104, 105]⟩)).length (.ExampleRpc ⟨[104, 105]⟩)
      (by decide) rfl⟩

/-- C10: whenever `parse_rpc_recv` or `parse_rpc_result` returns
`Some((n, _))` on a buffer, the consumed length `n` satisfies
`2 ≤ n ≤ buffer length`, so the dispatcher's offset advance stays within the
bytes received. -/
theorem consumed_length_bounds (buf : List Nat) :
    (∀ n v, parse_rpc_recv buf = .ok n v → 2 ≤ n ∧ n ≤ buf.length) ∧
    (∀ n v, parse_rpc_result buf = .ok n v → 2 ≤ n ∧ n ≤ buf.length) :=
  ⟨fun _ _ h => parse_rpc_recv_ok_bounds h, fun _ _ h => parse_rpc_result_ok_bounds h⟩

/-- Witness for C3: a concrete scan with a byte after the first `'}'`. -/
theorem find_json_delimiter_characterization_witness :
    find_json_delimiter [123, 97, 125, 98] = some 3 ∧ 2 ≤ 3 :=
  ⟨by decide, (find_json_delimiter_characterization [123, 97, 125, 98]).2.2 3 (by decide)⟩

/-- Witness for C10: the bounds at a concrete parsed frame. -/
theorem consumed_length_bounds_witness :
    parse_rpc_recv (serialize_rpc_arg (.ExampleRpc ⟨[104]⟩)) =
      .ok (serialize_rpc_arg (.ExampleRpc ⟨[104]⟩)).length (.ExampleRpc ⟨[104]⟩) ∧
    (2 ≤ (serialize_rpc_arg (.ExampleRpc ⟨[104]⟩)).length ∧
      (serialize_rpc_arg (.ExampleRpc ⟨[104]⟩)).length ≤
        (serialize_rpc_arg (.ExampleRpc ⟨[104]⟩)).length) :=
  ⟨by decide,
    (consumed_length_bounds (serialize_rpc_arg (.ExampleRpc ⟨[104]⟩))).1
      (serialize_rpc_arg (.ExampleRpc ⟨[104]⟩)).length (.ExampleRpc ⟨[104]⟩) (by decide)⟩
